import Mathlib

/-!
# Package `debugger`: output helpers and the error-stack dumper

A shallow embedding of `main.go`.  The package variables and the two
effects the package has on its surroundings (writes to standard output,
reads of the wall clock) are carried in an explicit `World`; every
function of the package becomes a function on worlds.

The three standard-library services the package calls are kept apart
from the package's own code:

* `time.Now` and `Time.Format` are fields of an environment `Env`, so the
  general theorems hold for every clock and every time formatter;
* `fmt.Printf` is `Sprintf`: literal text, `%%`, `%s`/`%v` on strings and
  errors and `%d`/`%v` on integers are modelled concretely; every other
  directive is handed to the field `fmtOther` of the environment.
-/

namespace Debugger

/-! ## Data model -/

/-- The package-level variables `Silent`, `Verbose`, `Timestamps`,
`TimestampFormat`. -/
structure Config where
  Silent : Bool
  Verbose : Bool
  Timestamps : Bool
  TimestampFormat : String
  deriving DecidableEq, Repr

/-- The layout constant `time.DateTime`. -/
def DateTime : String := "2006-01-02 15:04:05"

/-- Initial values of the package variables (lines 10-15). -/
def Config.default : Config :=
  { Silent := false, Verbose := false, Timestamps := true, TimestampFormat := DateTime }

/-- A non-nil value of Go's `error` interface, seen through the two things
the package asks of it: the text it displays and the error it wraps.  A
`leaf` wraps nothing (`errors.Unwrap` gives nil), a `wrap` wraps `inner`. -/
inductive GoError where
  | leaf (msg : String)
  | wrap (msg : String) (inner : GoError)
  deriving DecidableEq, Repr

/-- The text of an error (`err.Error()`, what `%v` and `%s` display). -/
def GoError.Error : GoError → String
  | .leaf msg => msg
  | .wrap msg _ => msg

/-- Library function `errors.Unwrap` on a non-nil error; `none` is nil. -/
def errorsUnwrap : GoError → Option GoError
  | .leaf _ => none
  | .wrap _ inner => some inner

/-- The errors of a chain, outermost first. -/
def GoError.chain : GoError → List GoError
  | .leaf msg => [.leaf msg]
  | .wrap msg inner => .wrap msg inner :: inner.chain

/-- The messages of a chain, outermost first. -/
def GoError.messages (e : GoError) : List String :=
  e.chain.map GoError.Error

/-- Values passed in a `...any` argument list. -/
inductive Arg where
  | str (s : String)
  | int (n : Int)
  | err (e : GoError)
  deriving DecidableEq, Repr

/-- The standard-library services outside the modelled fragment: the wall
clock (`now k` is what the `k`-th call of `time.Now` returns),
`Time.Format`, and what `fmt` does from the first directive it meets that
is outside the fragment of `Sprintf` (given the rest of the format, the
whole argument list and the number of arguments already used). -/
structure Env (τ : Type) where
  now : Nat → τ
  timeFormat : τ → String → String
  fmtOther : List Char → List Arg → Nat → List Char

/-- The package variables, the writes made to standard output so far (in
order) and the number of clock reads so far. -/
structure World where
  cfg : Config
  stdout : List String
  clockReads : Nat
  deriving DecidableEq, Repr

/-! ## Standard library: `strings.HasSuffix`, `fmt` -/

/-- Library function `strings.HasSuffix`. -/
def HasSuffix (s suffix : String) : Bool :=
  suffix.data.isSuffixOf s.data

/-- What `fmt` prints for one argument under a verb, inside the fragment:
`%s` and `%v` on a string or an error, `%d` and `%v` on an integer. -/
def printArg (verb : Char) : Arg → Option (List Char)
  | .str s => if verb = 's' ∨ verb = 'v' then some s.data else none
  | .err e => if verb = 's' ∨ verb = 'v' then some e.Error.data else none
  | .int n => if verb = 'd' ∨ verb = 'v' then some (Int.repr n).data else none

/-- The scanning loop of `fmt`: text up to a `%` is copied, `%%` prints a
percent sign and uses no argument, a verb of the fragment prints the next
argument; anything else (flags, widths, other verbs, a missing argument, a
trailing `%`, arguments left over at the end) goes to `other`.  `a` is the
whole argument list, `args` what is left of it, `argNum` how many are used. -/
def doPrintf (other : List Char → List Arg → Nat → List Char) (a : List Arg) :
    List Char → List Arg → Nat → List Char
  | [], [], _ => []
  | [], _ :: _, argNum => other [] a argNum
  | c :: rest, args, argNum =>
    if c ≠ '%' then c :: doPrintf other a rest args argNum
    else
      match rest, args with
      | [], _ => other [c] a argNum
      | v :: rest', [] =>
        if v = '%' then '%' :: doPrintf other a rest' [] argNum
        else other (c :: v :: rest') a argNum
      | v :: rest', x :: xs =>
        if v = '%' then '%' :: doPrintf other a rest' (x :: xs) argNum
        else
          match printArg v x with
          | some out => out ++ doPrintf other a rest' xs (argNum + 1)
          | none => other (c :: v :: rest') a argNum

variable {τ : Type}

/-- Library function `fmt.Sprintf`: the text `fmt.Printf` writes. -/
def Sprintf (env : Env τ) (format : String) (args : List Arg) : String :=
  String.mk (doPrintf env.fmtOther args format.data args 0)

/-! ## The package -/

/-- Function `AddTimestamp` (lines 42-47): the result string and the world
after the call (one clock read more when `Timestamps` is set). -/
def AddTimestamp (env : Env τ) (w : World) (s : String) : String × World :=
  if w.cfg.Timestamps then
    (env.timeFormat (env.now w.clockReads) w.cfg.TimestampFormat ++ ": " ++ s,
      { w with clockReads := w.clockReads + 1 })
  else
    (s, w)

/-- Function `Output` (lines 18-27). -/
def Output (env : Env τ) (w : World) (format : String) (args : List Arg) : World :=
  if w.cfg.Silent then w
  else
    let format := if !HasSuffix format "\n" then format ++ "\n" else format
    let r := AddTimestamp env w format
    { r.2 with stdout := r.2.stdout ++ [Sprintf env r.1 args] }

/-- Function `Debugf` (lines 35-39). -/
def Debugf (env : Env τ) (w : World) (format : String) (args : List Arg) : World :=
  if w.cfg.Verbose then Output env w format args else w

/-- Function `Debug` (lines 30-32). -/
def Debug (env : Env τ) (w : World) (format : String) (args : List Arg) : World :=
  Debugf env w format args

/-- The prefix of the lines after the first (line 59 of the source: eleven
spaces and the three characters U+00E2, U+201D, U+201D). -/
def continuationMarker : String := "           â””"

/-- The local variables of `DumpErrorStack` together with the world. -/
structure DumpState where
  i : Int
  pfx : String
  errorDepth : Nat
  world : World
  deriving DecidableEq, Repr

/-- One pass through the body of the loop of `DumpErrorStack` (lines 55-62)
for the non-nil error `err`: everything but the closing `errors.Unwrap`. -/
def DumpErrorStack.body (env : Env τ) (st : DumpState) (err : GoError) : DumpState :=
  let pfx := if st.errorDepth = 0 then "Error stack: " else continuationMarker
  { i := 1
    pfx := pfx
    errorDepth := st.errorDepth + 1
    world := Output env st.world "%s%v" [.str pfx, .err err] }

/-- The loop `for err != nil` of `DumpErrorStack`, entered with a non-nil
error: the body, then on with `errors.Unwrap(err)`. -/
def DumpErrorStack.loop (env : Env τ) : GoError → DumpState → DumpState
  | .leaf msg, st => DumpErrorStack.body env st (.leaf msg)
  | .wrap msg inner, st =>
    DumpErrorStack.loop env inner (DumpErrorStack.body env st (.wrap msg inner))

/-- Function `DumpErrorStack` (lines 52-67): the result `i` and the world
after the call.  `none` is the nil error. -/
def DumpErrorStack (env : Env τ) (w : World) (err : Option GoError) : Int × World :=
  let st : DumpState := { i := 0, pfx := "", errorDepth := 0, world := w }
  match err with
  | none => (st.i, st.world)
  | some e =>
    let st' := DumpErrorStack.loop env e st
    (st'.i, st'.world)

/-! ## A concrete environment

Used to evaluate the package on concrete inputs. -/

/-- A wall-clock reading, to the second. -/
structure CivilTime where
  year : Nat
  month : Nat
  day : Nat
  hour : Nat
  minute : Nat
  second : Nat
  deriving DecidableEq, Repr

/-- Decimal digits of `n`, padded with zeros on the left to `width`. -/
def zeroPad (width n : Nat) : List Char :=
  List.replicate (width - (Nat.repr n).length) '0' ++ (Nat.repr n).data

/-- The fragment of `Time.Format` for the six reference elements of
`time.DateTime`: `2006`, `01`, `02`, `15`, `04`, `05`.  Characters that
begin no reference element are copied, as Go does; the remaining reference
elements of Go (names of months and days, 12-hour clock, unpadded fields,
zones, fractions of a second) are not modelled and no evaluation below
uses a layout that has one. -/
def formatLayout (t : CivilTime) : List Char → List Char
  | '2' :: '0' :: '0' :: '6' :: rest => zeroPad 4 t.year ++ formatLayout t rest
  | '0' :: '1' :: rest => zeroPad 2 t.month ++ formatLayout t rest
  | '0' :: '2' :: rest => zeroPad 2 t.day ++ formatLayout t rest
  | '1' :: '5' :: rest => zeroPad 2 t.hour ++ formatLayout t rest
  | '0' :: '4' :: rest => zeroPad 2 t.minute ++ formatLayout t rest
  | '0' :: '5' :: rest => zeroPad 2 t.second ++ formatLayout t rest
  | c :: rest => c :: formatLayout t rest
  | [] => []

/-- A concrete environment: the clock starts at 2026-11-04 10:00:00 and
advances one second per reading; directives outside the fragment of
`doPrintf` print nothing (no evaluation below reaches one). -/
def goEnv : Env CivilTime where
  now := fun k => { year := 2026, month := 11, day := 4, hour := 10, minute := 0, second := k % 60 }
  timeFormat := fun t layout => String.mk (formatLayout t layout.data)
  fmtOther := fun _ _ _ => []

/-- The lines the specification describes for a chain with the given
messages: the first message after `"Error stack: "`, every later one after
the continuation marker, each followed by a newline. -/
def expectedLines : List String → List String
  | [] => []
  | m :: ms =>
    ("Error stack: " ++ m ++ "\n") :: ms.map (fun m' => continuationMarker ++ m' ++ "\n")

/-- The template `Output` hands to `AddTimestamp`: `format`, with a newline
appended when it does not end in one. -/
def terminated (format : String) : String :=
  if HasSuffix format "\n" then format else format ++ "\n"

/-- The world with the package variable `Verbose` assigned. -/
def World.setVerbose (w : World) (b : Bool) : World :=
  { w with cfg := { w.cfg with Verbose := b } }

/-! ## Lemmas -/

theorem loop_unwrap (env : Env τ) (e : GoError) (st : DumpState) :
    DumpErrorStack.loop env e st =
      match errorsUnwrap e with
      | none => DumpErrorStack.body env st e
      | some inner => DumpErrorStack.loop env inner (DumpErrorStack.body env st e) := by
  cases e <;> rfl

theorem Output_of_silent (env : Env τ) (w : World) (format : String) (args : List Arg)
    (h : w.cfg.Silent = true) : Output env w format args = w := by
  simp [Output, h]

theorem AddTimestamp_world (env : Env τ) (w : World) (s : String) :
    (AddTimestamp env w s).2 =
      { w with clockReads := w.clockReads + (if w.cfg.Timestamps then 1 else 0) } := by
  unfold AddTimestamp
  split <;> simp_all

theorem Output_of_not_silent (env : Env τ) (w : World) (format : String) (args : List Arg)
    (h : w.cfg.Silent = false) :
    Output env w format args =
      { cfg := w.cfg
        stdout := w.stdout ++ [Sprintf env (AddTimestamp env w (terminated format)).1 args]
        clockReads := w.clockReads + (if w.cfg.Timestamps then 1 else 0) } := by
  have ht : (if (!HasSuffix format "\n") = true then format ++ "\n" else format)
      = terminated format := by
    unfold terminated
    cases HasSuffix format "\n" <;> simp
  simp only [Output, h, Bool.false_eq_true, if_false, ht, AddTimestamp_world]

theorem Output_cfg (env : Env τ) (w : World) (format : String) (args : List Arg) :
    (Output env w format args).cfg = w.cfg := by
  cases h : w.cfg.Silent
  · rw [Output_of_not_silent env w format args h]
  · rw [Output_of_silent env w format args h]

theorem body_cfg (env : Env τ) (st : DumpState) (e : GoError) :
    (DumpErrorStack.body env st e).world.cfg = st.world.cfg := by
  simp [DumpErrorStack.body, Output_cfg]

theorem loop_cfg (env : Env τ) (e : GoError) (st : DumpState) :
    (DumpErrorStack.loop env e st).world.cfg = st.world.cfg := by
  induction e generalizing st with
  | leaf msg => simp [DumpErrorStack.loop, body_cfg]
  | wrap msg inner ih => simp [DumpErrorStack.loop, ih, body_cfg]

theorem loop_i (env : Env τ) (e : GoError) (st : DumpState) :
    (DumpErrorStack.loop env e st).i = 1 := by
  induction e generalizing st with
  | leaf msg => rfl
  | wrap msg inner ih => simp [DumpErrorStack.loop, ih]

theorem loop_of_silent (env : Env τ) (e : GoError) (st : DumpState)
    (h : st.world.cfg.Silent = true) :
    (DumpErrorStack.loop env e st).world = st.world := by
  induction e generalizing st with
  | leaf msg => simp [DumpErrorStack.loop, DumpErrorStack.body, Output_of_silent, h]
  | wrap msg inner ih =>
    have hb : (DumpErrorStack.body env st (.wrap msg inner)).world = st.world := by
      simp [DumpErrorStack.body, Output_of_silent, h]
    rw [DumpErrorStack.loop, ih _ (by rw [hb]; exact h), hb]

theorem chain_length_pos (e : GoError) : 0 < e.chain.length := by
  cases e <;> simp [GoError.chain]

/-- The text written for one error of the stack, timestamps aside. -/
theorem Sprintf_stack_line (env : Env τ) (p : String) (e : GoError) :
    Sprintf env "%s%v\n" [.str p, .err e] = p ++ e.Error ++ "\n" := by
  apply String.ext
  simp [Sprintf, doPrintf, printArg]

theorem Output_setVerbose (env : Env τ) (w : World) (b : Bool) (format : String)
    (args : List Arg) :
    Output env (w.setVerbose b) format args = (Output env w format args).setVerbose b := by
  unfold Output AddTimestamp World.setVerbose
  cases w.cfg.Silent <;> cases w.cfg.Timestamps <;> simp

theorem body_setVerbose (env : Env τ) (st : DumpState) (b : Bool) (e : GoError) :
    DumpErrorStack.body env { st with world := st.world.setVerbose b } e =
      { DumpErrorStack.body env st e with
        world := (DumpErrorStack.body env st e).world.setVerbose b } := by
  simp [DumpErrorStack.body, Output_setVerbose]

theorem loop_setVerbose (env : Env τ) (e : GoError) (st : DumpState) (b : Bool) :
    DumpErrorStack.loop env e { st with world := st.world.setVerbose b } =
      { DumpErrorStack.loop env e st with
        world := (DumpErrorStack.loop env e st).world.setVerbose b } := by
  induction e generalizing st with
  | leaf msg => simp [DumpErrorStack.loop, body_setVerbose]
  | wrap msg inner ih =>
    rw [DumpErrorStack.loop, body_setVerbose, DumpErrorStack.loop]
    exact ih (DumpErrorStack.body env st (.wrap msg inner))

theorem DumpErrorStack_setVerbose (env : Env τ) (w : World) (b : Bool) (err : Option GoError) :
    DumpErrorStack env (w.setVerbose b) err =
      ((DumpErrorStack env w err).1, (DumpErrorStack env w err).2.setVerbose b) := by
  cases err with
  | none => rfl
  | some e =>
    have h := loop_setVerbose env e { i := 0, pfx := "", errorDepth := 0, world := w } b
    simp only [DumpErrorStack]
    rw [h]

theorem body_plain (env : Env τ) (st : DumpState) (e : GoError)
    (hs : st.world.cfg.Silent = false) (ht : st.world.cfg.Timestamps = false) :
    (DumpErrorStack.body env st e).world =
      { st.world with
        stdout := st.world.stdout ++
          [(if st.errorDepth = 0 then "Error stack: " else continuationMarker)
            ++ e.Error ++ "\n"] } := by
  have hterm : terminated "%s%v" = "%s%v\n" := by decide
  simp only [DumpErrorStack.body]
  rw [Output_of_not_silent _ _ _ _ hs]
  simp [AddTimestamp, ht, hterm, Sprintf_stack_line]

theorem loop_plain_deep (env : Env τ) (e : GoError) (st : DumpState)
    (hs : st.world.cfg.Silent = false) (ht : st.world.cfg.Timestamps = false)
    (hd : st.errorDepth ≠ 0) :
    (DumpErrorStack.loop env e st).world =
      { st.world with
        stdout := st.world.stdout ++
          e.messages.map (fun m => continuationMarker ++ m ++ "\n") } := by
  induction e generalizing st with
  | leaf msg =>
    rw [DumpErrorStack.loop, body_plain env st _ hs ht]
    simp [hd, GoError.messages, GoError.chain]
  | wrap msg inner ih =>
    have hb := body_plain env st (.wrap msg inner) hs ht
    rw [DumpErrorStack.loop, ih (DumpErrorStack.body env st (.wrap msg inner))
      (by rw [hb]; exact hs) (by rw [hb]; exact ht) (by simp [DumpErrorStack.body]), hb]
    simp [hd, GoError.messages, GoError.chain]

theorem loop_plain (env : Env τ) (e : GoError) (st : DumpState)
    (hs : st.world.cfg.Silent = false) (ht : st.world.cfg.Timestamps = false)
    (hd : st.errorDepth = 0) :
    (DumpErrorStack.loop env e st).world =
      { st.world with stdout := st.world.stdout ++ expectedLines e.messages } := by
  cases e with
  | leaf msg =>
    rw [DumpErrorStack.loop, body_plain env st _ hs ht]
    simp [hd, GoError.messages, GoError.chain, expectedLines]
  | wrap msg inner =>
    have hb := body_plain env st (.wrap msg inner) hs ht
    rw [DumpErrorStack.loop, loop_plain_deep env inner
      (DumpErrorStack.body env st (.wrap msg inner))
      (by rw [hb]; exact hs) (by rw [hb]; exact ht) (by simp [DumpErrorStack.body]), hb]
    simp [hd, GoError.messages, GoError.chain, expectedLines]

theorem expectedLines_length (ms : List String) : (expectedLines ms).length = ms.length := by
  cases ms <;> simp [expectedLines]

theorem expectedLines_getElem? (ms : List String) (k : Nat) :
    (expectedLines ms)[k]? =
      ms[k]?.map (fun m =>
        (if k = 0 then "Error stack: " else continuationMarker) ++ m ++ "\n") := by
  cases ms with
  | nil => simp [expectedLines]
  | cons m ms =>
    cases k with
    | zero => simp [expectedLines]
    | succ k => simp [expectedLines, List.getElem?_map]

/-- In a world with `Silent` unset the loop makes one write per error of the
chain. -/
theorem loop_writes (env : Env τ) (e : GoError) (st : DumpState)
    (hs : st.world.cfg.Silent = false) :
    ∃ lines : List String,
      (DumpErrorStack.loop env e st).world.stdout = st.world.stdout ++ lines ∧
      lines.length = e.chain.length := by
  have hbody : ∀ (st : DumpState) (e : GoError), st.world.cfg.Silent = false →
      ∃ line : String,
        (DumpErrorStack.body env st e).world.stdout = st.world.stdout ++ [line] := by
    intro st e hs
    simp only [DumpErrorStack.body]
    rw [Output_of_not_silent _ _ _ _ hs]
    exact ⟨_, rfl⟩
  induction e generalizing st with
  | leaf msg =>
    obtain ⟨line, hl⟩ := hbody st (.leaf msg) hs
    exact ⟨[line], by rw [DumpErrorStack.loop, hl], rfl⟩
  | wrap msg inner ih =>
    obtain ⟨line, hl⟩ := hbody st (.wrap msg inner) hs
    obtain ⟨lines, h1, h2⟩ := ih (DumpErrorStack.body env st (.wrap msg inner))
      (by rw [body_cfg]; exact hs)
    refine ⟨line :: lines, ?_, by simp [GoError.chain, h2]⟩
    rw [DumpErrorStack.loop, h1, hl]
    simp

theorem doPrintf_literal (other : List Char → List Arg → Nat → List Char) (a : List Arg)
    (p f : List Char) (args : List Arg) (n : Nat) (hp : '%' ∉ p) :
    doPrintf other a (p ++ f) args n = p ++ doPrintf other a f args n := by
  induction p with
  | nil => rfl
  | cons c p ih =>
    have hc : c ≠ '%' := fun h => hp (by simp [h])
    have hp' : '%' ∉ p := fun h => hp (List.mem_cons_of_mem _ h)
    rw [List.cons_append, doPrintf.eq_def]
    simp only [hc, ne_eq, not_false_eq_true, if_true, ih hp', List.cons_append]

/-- Text of the format before its first `%` is written as it stands. -/
theorem Sprintf_literal (env : Env τ) (p f : String) (args : List Arg)
    (hp : '%' ∉ p.data) : Sprintf env (p ++ f) args = p ++ Sprintf env f args := by
  apply String.ext
  simp [Sprintf, doPrintf_literal _ _ _ _ _ _ hp]

/-- A format without `%` and without arguments is written as it stands. -/
theorem Sprintf_plain (env : Env τ) (f : String) (hf : '%' ∉ f.data) :
    Sprintf env f [] = f := by
  have h := doPrintf_literal env.fmtOther [] f.data [] [] 0 hf
  apply String.ext
  simp only [Sprintf]
  rw [List.append_nil] at h
  rw [h]
  simp [doPrintf]

theorem terminated_of_not_suffix (f : String) (h : HasSuffix f "\n" = false) :
    terminated f = f ++ "\n" ∧ HasSuffix (terminated f) "\n" = true ∧
      HasSuffix (terminated f) "\n\n" = false := by
  have ht : terminated f = f ++ "\n" := by simp [terminated, h]
  rw [ht]
  refine ⟨rfl, ?_, ?_⟩
  · simp [HasSuffix]
  · simp only [HasSuffix] at h ⊢
    simp [List.isSuffixOf] at h ⊢
    exact h

theorem hasSuffix_stamped (q f : String) (h : HasSuffix f "\n" = false) :
    HasSuffix (q ++ ": " ++ f ++ "\n") "\n" = true ∧
      HasSuffix (q ++ ": " ++ f ++ "\n") "\n\n" = false := by
  constructor
  · simp only [HasSuffix, List.isSuffixOf_iff_suffix, String.data_append]
    exact List.suffix_append _ _
  · simp only [HasSuffix] at h ⊢
    simp [List.isSuffixOf] at h ⊢
    cases hr : f.data.reverse with
    | nil => simp [List.isPrefixOf]
    | cons c t =>
      rw [hr] at h
      simp [List.isPrefixOf] at h ⊢
      exact h

/-! ## The claims -/

/-- C1: for every error chain and every configuration, `DumpErrorStack`
returns 0 on the nil error and 1 on every non-nil error, and so never any
other value. -/
theorem C1_DumpErrorStack_result (env : Env τ) (w : World) :
    (DumpErrorStack env w none).1 = 0 ∧
    (∀ e : GoError, (DumpErrorStack env w (some e)).1 = 1) ∧
    (∀ err : Option GoError,
      (DumpErrorStack env w err).1 = 0 ∨ (DumpErrorStack env w err).1 = 1) := by
  have h1 : ∀ e : GoError, (DumpErrorStack env w (some e)).1 = 1 := fun e => by
    simp [DumpErrorStack, loop_i]
  refine ⟨rfl, h1, fun err => ?_⟩
  cases err with
  | none => exact Or.inl rfl
  | some e => exact Or.inr (h1 e)

/-- C4: when `Silent` is set, whatever the other three package variables
and whatever the input, `Output`, `Debug`, `Debugf` and `DumpErrorStack`
leave the world as it was: they write nothing to standard output. -/
theorem C4_silent_no_output (env : Env τ) (w : World) (format : String) (args : List Arg)
    (err : Option GoError) (h : w.cfg.Silent = true) :
    Output env w format args = w ∧
    Debug env w format args = w ∧
    Debugf env w format args = w ∧
    (DumpErrorStack env w err).2 = w ∧
    (w.stdout = [] →
      (Output env w format args).stdout = [] ∧ (Debug env w format args).stdout = [] ∧
      (Debugf env w format args).stdout = [] ∧ (DumpErrorStack env w err).2.stdout = []) := by
  have hO := Output_of_silent env w format args h
  have hD : Debugf env w format args = w := by
    unfold Debugf
    split
    · exact hO
    · rfl
  have hE : (DumpErrorStack env w err).2 = w := by
    cases err with
    | none => rfl
    | some e =>
      exact loop_of_silent env e { i := 0, pfx := "", errorDepth := 0, world := w } h
  refine ⟨hO, hD, hD, hE, fun h0 => ?_⟩
  have hD' : Debug env w format args = w := hD
  rw [hO, hD, hD', hE]
  exact ⟨h0, h0, h0, h0⟩

theorem C4_silent_no_output_witness :
    Output goEnv ⟨⟨true, true, true, DateTime⟩, [], 0⟩ "value=%d" [.int 5]
      = ⟨⟨true, true, true, DateTime⟩, [], 0⟩ ∧
    (DumpErrorStack goEnv ⟨⟨true, true, true, DateTime⟩, [], 0⟩
      (some (.wrap "open config" (.leaf "disk full")))).2.stdout = [] :=
  have h := C4_silent_no_output goEnv ⟨⟨true, true, true, DateTime⟩, [], 0⟩ "value=%d"
    [.int 5] (some (.wrap "open config" (.leaf "disk full"))) rfl
  ⟨h.1, (h.2.2.2.2 rfl).2.2.2⟩

/-- C5: `Debug` is `Debugf`; with `Verbose` unset both leave the world as it
was, whatever `Silent` is; with `Verbose` set both do exactly what `Output`
does, so nothing when `Silent` is set as well.  With `Silent` unset,
`Verbose` set and `Timestamps` unset, `Debugf("value=%d", 5)` writes exactly
`"value=5\n"`. -/
theorem C5_Debug_Debugf (env : Env τ) (silent ts : Bool) (tf : String) (out : List String)
    (r : Nat) (format : String) (args : List Arg) :
    (∀ w : World, Debug env w format args = Debugf env w format args) ∧
    Debugf env ⟨⟨silent, false, ts, tf⟩, out, r⟩ format args
      = ⟨⟨silent, false, ts, tf⟩, out, r⟩ ∧
    Debugf env ⟨⟨silent, true, ts, tf⟩, out, r⟩ format args
      = Output env ⟨⟨silent, true, ts, tf⟩, out, r⟩ format args ∧
    Debugf env ⟨⟨true, true, ts, tf⟩, out, r⟩ format args
      = ⟨⟨true, true, ts, tf⟩, out, r⟩ ∧
    Debugf env ⟨⟨false, true, false, tf⟩, [], r⟩ "value=%d" [.int 5]
      = ⟨⟨false, true, false, tf⟩, ["value=5\n"], r⟩ ∧
    Debug env ⟨⟨false, true, false, tf⟩, [], r⟩ "value=%d" [.int 5]
      = ⟨⟨false, true, false, tf⟩, ["value=5\n"], r⟩ := by
  have hs : Debugf env ⟨⟨false, true, false, tf⟩, [], r⟩ "value=%d" [.int 5]
      = ⟨⟨false, true, false, tf⟩, ["value=5\n"], r⟩ := by
    have hv : Sprintf env "value=%d\n" [.int 5] = "value=5\n" := by
      apply String.ext
      simp [Sprintf, doPrintf, printArg]
      decide
    have ht : terminated "value=%d" = "value=%d\n" := by decide
    simp only [Debugf, if_true]
    rw [Output_of_not_silent _ _ _ _ rfl]
    simp [AddTimestamp, ht, hv]
  refine ⟨fun _ => rfl, rfl, rfl, ?_, hs, hs⟩
  simp [Debugf, Output]

/-- C7: with `Timestamps` unset `AddTimestamp(s)` returns exactly `s`; with
`Timestamps` set it returns the current time formatted by `TimestampFormat`,
then `": "`, then `s`; in both cases `s` is a suffix of the result and the
package variables are left as they were. -/
theorem C7_AddTimestamp (env : Env τ) (silent verbose : Bool) (tf : String)
    (out : List String) (r : Nat) (s : String) :
    (AddTimestamp env ⟨⟨silent, verbose, false, tf⟩, out, r⟩ s).1 = s ∧
    (AddTimestamp env ⟨⟨silent, verbose, true, tf⟩, out, r⟩ s).1
      = env.timeFormat (env.now r) tf ++ ": " ++ s ∧
    (∀ w : World, s.data <:+ (AddTimestamp env w s).1.data) ∧
    (∀ w : World, HasSuffix (AddTimestamp env w s).1 s = true) ∧
    (∀ w : World, (AddTimestamp env w s).2.cfg = w.cfg) ∧
    (∀ w : World, (AddTimestamp env w s).2.stdout = w.stdout) := by
  have hsuf : ∀ w : World, s.data <:+ (AddTimestamp env w s).1.data := by
    intro w
    unfold AddTimestamp
    split
    · simp only [String.data_append]
      exact List.suffix_append _ _
    · exact List.suffix_refl _
  refine ⟨rfl, rfl, hsuf, fun w => ?_, fun w => ?_, fun w => ?_⟩
  · simpa [HasSuffix] using hsuf w
  · rw [AddTimestamp_world]
  · rw [AddTimestamp_world]

/-- C10: `DumpErrorStack` ignores `Verbose`: for every error chain, every
setting of `Silent`, `Timestamps` and `TimestampFormat` and every clock, the
run with `Verbose` set and the run with `Verbose` unset return the same
value, make the same writes to standard output and read the clock as often. -/
theorem C10_DumpErrorStack_ignores_verbose (env : Env τ) (silent ts : Bool) (tf : String)
    (out : List String) (r : Nat) (err : Option GoError) :
    (DumpErrorStack env ⟨⟨silent, true, ts, tf⟩, out, r⟩ err).1
      = (DumpErrorStack env ⟨⟨silent, false, ts, tf⟩, out, r⟩ err).1 ∧
    (DumpErrorStack env ⟨⟨silent, true, ts, tf⟩, out, r⟩ err).2.stdout
      = (DumpErrorStack env ⟨⟨silent, false, ts, tf⟩, out, r⟩ err).2.stdout ∧
    (DumpErrorStack env ⟨⟨silent, true, ts, tf⟩, out, r⟩ err).2.clockReads
      = (DumpErrorStack env ⟨⟨silent, false, ts, tf⟩, out, r⟩ err).2.clockReads := by
  have h := DumpErrorStack_setVerbose env ⟨⟨silent, false, ts, tf⟩, out, r⟩ true err
  have hw : (⟨⟨silent, false, ts, tf⟩, out, r⟩ : World).setVerbose true
      = ⟨⟨silent, true, ts, tf⟩, out, r⟩ := rfl
  rw [hw] at h
  rw [h]
  exact ⟨rfl, rfl, rfl⟩

/-- C2: with `Silent` and `Timestamps` unset, for the chain `e` with
messages `m1, ..., mn` (outermost first) `DumpErrorStack` returns 1 and adds
exactly `n` writes to standard output, in chain order: the first is
`"Error stack: "`, `m1` and a newline, the `k`-th for `k > 1` is the
continuation marker, `mk` and a newline, whatever characters the messages
contain.  For the single error `"disk full"` the output is exactly
`"Error stack: disk full\n"` and the result is 1. -/
theorem C2_DumpErrorStack_lines (env : Env τ) (verbose : Bool) (tf : String)
    (out : List String) (r : Nat) (e : GoError) :
    DumpErrorStack env ⟨⟨false, verbose, false, tf⟩, out, r⟩ (some e)
      = (1, ⟨⟨false, verbose, false, tf⟩, out ++ expectedLines e.messages, r⟩) ∧
    (expectedLines e.messages).length = e.chain.length ∧
    (expectedLines e.messages)[0]? = some ("Error stack: " ++ e.Error ++ "\n") ∧
    (∀ (k : Nat) (ek : GoError), 0 < k → e.chain[k]? = some ek →
      (expectedLines e.messages)[k]? = some (continuationMarker ++ ek.Error ++ "\n")) ∧
    DumpErrorStack env ⟨⟨false, verbose, false, tf⟩, [], r⟩ (some (.leaf "disk full"))
      = (1, ⟨⟨false, verbose, false, tf⟩, ["Error stack: disk full\n"], r⟩) := by
  have main : ∀ (out : List String) (e : GoError),
      DumpErrorStack env ⟨⟨false, verbose, false, tf⟩, out, r⟩ (some e)
        = (1, ⟨⟨false, verbose, false, tf⟩, out ++ expectedLines e.messages, r⟩) := by
    intro out e
    have h := loop_plain env e
      { i := 0, pfx := "", errorDepth := 0, world := ⟨⟨false, verbose, false, tf⟩, out, r⟩ }
      rfl rfl rfl
    simp only [DumpErrorStack]
    rw [loop_i, h]
  refine ⟨main out e, ?_, ?_, ?_, ?_⟩
  · simp [expectedLines_length, GoError.messages]
  · rw [expectedLines_getElem?]
    cases e <;> simp [GoError.messages, GoError.chain, GoError.Error]
  · intro k ek hk hek
    rw [expectedLines_getElem?]
    simp [GoError.messages, List.getElem?_map, hek, Nat.pos_iff_ne_zero.mp hk]
  · exact main [] (.leaf "disk full")

theorem C2_DumpErrorStack_lines_witness :
    DumpErrorStack goEnv ⟨⟨false, false, false, DateTime⟩, [], 0⟩
        (some (.wrap "load 100%" (.wrap "open %s" (.leaf "disk full"))))
      = (1, ⟨⟨false, false, false, DateTime⟩,
          ["Error stack: load 100%\n", "           â””open %s\n",
           "           â””disk full\n"], 0⟩) ∧
    (expectedLines (GoError.messages
      (.wrap "load 100%" (.wrap "open %s" (.leaf "disk full")))))[2]?
      = some (continuationMarker ++ "disk full" ++ "\n") :=
  have h := C2_DumpErrorStack_lines goEnv false DateTime [] 0
    (.wrap "load 100%" (.wrap "open %s" (.leaf "disk full")))
  ⟨h.1, h.2.2.2.1 2 (.leaf "disk full") (by decide) rfl⟩

/-- C3 (what the code does at the failing input): with the initial values of
the package variables (`Timestamps` set, layout `time.DateTime`) the line
`DumpErrorStack` writes for the single error `"disk full"` starts with the
timestamp and differs from the line written with `Timestamps` unset. -/
theorem C3_DumpErrorStack_timestamped :
    DumpErrorStack goEnv ⟨⟨false, false, true, DateTime⟩, [], 0⟩ (some (.leaf "disk full"))
      = (1, ⟨⟨false, false, true, DateTime⟩,
          ["2026-11-04 10:00:00: Error stack: disk full\n"], 1⟩) ∧
    DumpErrorStack goEnv ⟨⟨false, false, false, DateTime⟩, [], 0⟩ (some (.leaf "disk full"))
      = (1, ⟨⟨false, false, false, DateTime⟩, ["Error stack: disk full\n"], 0⟩) ∧
    (DumpErrorStack goEnv ⟨⟨false, false, true, DateTime⟩, [], 0⟩
        (some (.leaf "disk full"))).2.stdout
      ≠ (DumpErrorStack goEnv ⟨⟨false, false, false, DateTime⟩, [], 0⟩
        (some (.leaf "disk full"))).2.stdout := by
  decide

/-- C6 (refuted as stated): the format `"%s"` does not end in a newline, yet
with the argument `"\n"` the text `Output` writes is `"\n\n"`, which ends in
two newlines. -/
theorem C6_counterexample :
    HasSuffix "%s" "\n" = false ∧
    (Output goEnv ⟨⟨false, false, false, DateTime⟩, [], 0⟩ "%s" [.str "\n"]).stdout
      = ["\n\n"] ∧
    HasSuffix "\n\n" "\n\n" = true := by
  decide

/-- C6 (amended): with `Silent` unset, `Output` writes the interpolation of
the template `terminated f`, timestamp prefix apart.  For `f` not ending in
a newline that template is `f` and one newline, so it ends in `"\n"` and not
in `"\n\n"`; for `f` ending in a newline it is `f` itself.  When neither `f`
nor the timestamp prefix contains `%` and there are no arguments, the text
written ends in `"\n"` and not in `"\n\n"`. -/
theorem C6_Output_newline (env : Env τ) (verbose ts : Bool) (tf : String)
    (out : List String) (r : Nat) (f : String) (args : List Arg) :
    (Output env ⟨⟨false, verbose, ts, tf⟩, out, r⟩ f args).stdout
      = out ++ [Sprintf env
          (AddTimestamp env ⟨⟨false, verbose, ts, tf⟩, out, r⟩ (terminated f)).1 args] ∧
    (HasSuffix f "\n" = false →
      terminated f = f ++ "\n" ∧ HasSuffix (terminated f) "\n" = true ∧
        HasSuffix (terminated f) "\n\n" = false) ∧
    (HasSuffix f "\n" = true → terminated f = f) ∧
    (HasSuffix f "\n" = false → '%' ∉ f.data →
      (Output env ⟨⟨false, verbose, false, tf⟩, out, r⟩ f []).stdout = out ++ [f ++ "\n"] ∧
        HasSuffix (f ++ "\n") "\n" = true ∧ HasSuffix (f ++ "\n") "\n\n" = false) ∧
    (HasSuffix f "\n" = false → '%' ∉ f.data →
      '%' ∉ (env.timeFormat (env.now r) tf).data →
      (Output env ⟨⟨false, verbose, true, tf⟩, out, r⟩ f []).stdout
          = out ++ [env.timeFormat (env.now r) tf ++ ": " ++ f ++ "\n"] ∧
        HasSuffix (env.timeFormat (env.now r) tf ++ ": " ++ f ++ "\n") "\n" = true ∧
        HasSuffix (env.timeFormat (env.now r) tf ++ ": " ++ f ++ "\n") "\n\n" = false) := by
  refine ⟨?_, terminated_of_not_suffix f, fun h => by simp [terminated, h], ?_, ?_⟩
  · rw [Output_of_not_silent _ _ _ _ rfl]
  · intro h hf
    have ht := terminated_of_not_suffix f h
    refine ⟨?_, ht.1 ▸ ht.2.1, ht.1 ▸ ht.2.2⟩
    rw [Output_of_not_silent _ _ _ _ rfl]
    have hp : '%' ∉ (f ++ "\n").data := by
      simp only [String.data_append, List.mem_append, not_or]
      exact ⟨hf, by decide⟩
    simp [AddTimestamp, ht.1, Sprintf_plain env _ hp]
  · intro h hf hstamp
    have ht := terminated_of_not_suffix f h
    have hs := hasSuffix_stamped (env.timeFormat (env.now r) tf) f h
    refine ⟨?_, hs.1, hs.2⟩
    rw [Output_of_not_silent _ _ _ _ rfl]
    have hp : '%' ∉ (env.timeFormat (env.now r) tf ++ ": " ++ (f ++ "\n")).data := by
      simp only [String.data_append, List.mem_append, not_or]
      exact ⟨⟨hstamp, by decide⟩, hf, by decide⟩
    simp only [AddTimestamp, ht.1, if_true, Sprintf_plain env _ hp]
    simp [String.append_assoc]

theorem C6_Output_newline_witness :
    (Output goEnv ⟨⟨false, false, true, DateTime⟩, [], 0⟩ "ready" []).stdout
      = ["2026-11-04 10:00:00: ready\n"] ∧
    (Output goEnv ⟨⟨false, false, false, DateTime⟩, [], 0⟩ "ready" []).stdout
      = ["ready\n"] ∧
    terminated "ready" = "ready\n" ∧ terminated "ready\n" = "ready\n" :=
  have h := C6_Output_newline goEnv false true DateTime [] 0 "ready" []
  have h' := C6_Output_newline goEnv false true DateTime [] 0 "ready\n" []
  ⟨(h.2.2.2.2 (by decide) (by decide) (by decide)).1,
    (h.2.2.2.1 (by decide) (by decide)).1, (h.2.1 (by decide)).1, h'.2.2.1 (by decide)⟩

/-- C8 (refuted as stated): with the layout `"%%"` the formatted time is
`"%%"`, and `Output("x")` writes `"%: x\n"`: the text does not begin with
the formatted time followed by `": "`. -/
theorem C8_counterexample :
    goEnv.timeFormat (goEnv.now 0) "%%" = "%%" ∧
    (Output goEnv ⟨⟨false, false, true, "%%"⟩, [], 0⟩ "x" []).stdout = ["%: x\n"] ∧
    (Output goEnv ⟨⟨false, false, true, "%%"⟩, [], 0⟩ "x" []).stdout
      ≠ [goEnv.timeFormat (goEnv.now 0) "%%" ++ ": " ++ Sprintf goEnv "x\n" []] ∧
    ¬ ("%%: ".data <+: "%: x\n".data) := by
  decide

/-- C8 (amended): with `Silent` unset and `Timestamps` set, `Output` writes
the interpolation of the formatted current time, `": "` and the
newline-terminated format, all three as one template; when the formatted
time contains no `%`, that text is the formatted time, `": "` and the
interpolation of the newline-terminated format with the arguments. -/
theorem C8_Output_timestamped (env : Env τ) (verbose : Bool) (tf : String)
    (out : List String) (r : Nat) (f : String) (args : List Arg)
    (hstamp : '%' ∉ (env.timeFormat (env.now r) tf).data) :
    (Output env ⟨⟨false, verbose, true, tf⟩, out, r⟩ f args).stdout
      = out ++ [Sprintf env (env.timeFormat (env.now r) tf ++ ": " ++ terminated f) args] ∧
    (Output env ⟨⟨false, verbose, true, tf⟩, out, r⟩ f args).stdout
      = out ++ [env.timeFormat (env.now r) tf ++ ": " ++ Sprintf env (terminated f) args] ∧
    (env.timeFormat (env.now r) tf ++ ": ").data
      <+: (env.timeFormat (env.now r) tf ++ ": " ++ Sprintf env (terminated f) args).data := by
  have h1 : (Output env ⟨⟨false, verbose, true, tf⟩, out, r⟩ f args).stdout
      = out ++ [Sprintf env (env.timeFormat (env.now r) tf ++ ": " ++ terminated f) args] := by
    rw [Output_of_not_silent _ _ _ _ rfl]
    simp [AddTimestamp]
  have hp : '%' ∉ (env.timeFormat (env.now r) tf ++ ": ").data := by
    simp only [String.data_append, List.mem_append, not_or]
    exact ⟨hstamp, by decide⟩
  refine ⟨h1, ?_, ?_⟩
  · rw [h1, Sprintf_literal env _ _ _ hp]
  · simp only [String.data_append]
    exact List.prefix_append _ _

theorem C8_Output_timestamped_witness :
    (Output goEnv ⟨⟨false, false, true, DateTime⟩, [], 0⟩ "value=%d" [.int 5]).stdout
      = [] ++ [goEnv.timeFormat (goEnv.now 0) DateTime ++ ": "
          ++ Sprintf goEnv (terminated "value=%d") [.int 5]] :=
  (C8_Output_timestamped goEnv false DateTime [] 0 "value=%d" [.int 5] (by decide)).2.1

/-- C9 (refuted as stated): with `Silent` set, `DumpErrorStack` returns 1 for
the error `"disk full"` and writes nothing. -/
theorem C9_counterexample :
    (DumpErrorStack goEnv ⟨⟨true, false, true, DateTime⟩, [], 0⟩
      (some (.leaf "disk full"))).1 = 1 ∧
    (DumpErrorStack goEnv ⟨⟨true, false, true, DateTime⟩, [], 0⟩
      (some (.leaf "disk full"))).2.stdout = [] := by
  decide

/-- C9 (amended): for every error chain and every configuration
`DumpErrorStack` returns 1 exactly when the error is non-nil and 0 exactly
when it is nil; with `Silent` unset it adds one write per error of the
chain, so it returns 1 exactly when it wrote at least one line. -/
theorem C9_DumpErrorStack_signal (env : Env τ) (w : World) (err : Option GoError) :
    ((DumpErrorStack env w err).1 = 1 ↔ err ≠ none) ∧
    ((DumpErrorStack env w err).1 = 0 ↔ err = none) ∧
    (w.cfg.Silent = false →
      ∃ lines : List String,
        (DumpErrorStack env w err).2.stdout = w.stdout ++ lines ∧
        lines.length = (match err with
          | none => 0
          | some e => e.chain.length) ∧
        ((DumpErrorStack env w err).1 = 1 ↔ lines ≠ [])) := by
  cases err with
  | none =>
    refine ⟨by simp [DumpErrorStack], by simp [DumpErrorStack], fun _ => ⟨[], ?_, rfl, ?_⟩⟩
    · simp [DumpErrorStack]
    · simp [DumpErrorStack]
  | some e =>
    have h1 : (DumpErrorStack env w (some e)).1 = 1 := by simp [DumpErrorStack, loop_i]
    refine ⟨by simp [h1], by simp [h1], fun hs => ?_⟩
    obtain ⟨lines, hl, hn⟩ := loop_writes env e
      { i := 0, pfx := "", errorDepth := 0, world := w } hs
    refine ⟨lines, hl, hn, ?_⟩
    have hpos := chain_length_pos e
    have : lines ≠ [] := fun h => by simp [h] at hn; omega
    simp [h1, this]

theorem C9_DumpErrorStack_signal_witness :
    ∃ lines : List String,
      (DumpErrorStack goEnv ⟨⟨false, false, true, DateTime⟩, [], 0⟩
        (some (.wrap "open config" (.leaf "disk full")))).2.stdout = [] ++ lines ∧
      lines.length = 2 ∧
      ((DumpErrorStack goEnv ⟨⟨false, false, true, DateTime⟩, [], 0⟩
        (some (.wrap "open config" (.leaf "disk full")))).1 = 1 ↔ lines ≠ []) :=
  (C9_DumpErrorStack_signal goEnv ⟨⟨false, false, true, DateTime⟩, [], 0⟩
    (some (.wrap "open config" (.leaf "disk full")))).2.2 rfl

end Debugger
